import Mathlib

/-!
# Verification of `GeometryGenerator` (procedural mesh generation)

Shallow embedding of `src/Common/GeometryGenerator.h` and of the mesh
generation algorithms it declares.  The header fully defines
`MeshData::GetIndices16`; the generator bodies (`CreateBox`, `CreateSphere`,
`Subdivide`, `MidPoint`, ...) live in a `.cpp` file that is not part of the
source tree, so those operations are modelled from the specification and are
marked `Modelled from the spec:` in their doc comments.

Scalars (the `float` fields of a vertex) are modelled as real numbers;
32-bit and 16-bit indices are modelled as natural numbers, with the
`static_cast<uint16>` truncation made explicit as `% 65536`.
-/

/-- `DirectX::XMFLOAT3`: a triple of scalar components. -/
structure XMFLOAT3 where
  x : ℝ
  y : ℝ
  z : ℝ

/-- `DirectX::XMFLOAT2`: a pair of scalar components. -/
structure XMFLOAT2 where
  x : ℝ
  y : ℝ

/-- `GeometryGenerator::Vertex`: Position, Normal, TangentU, TexC. -/
structure Vertex where
  Position : XMFLOAT3
  Normal : XMFLOAT3
  TangentU : XMFLOAT3
  TexC : XMFLOAT2

/-- `GeometryGenerator::MeshData`: a vertex buffer, a wide (32-bit) index
buffer, and the private narrow (16-bit) index cache `mIndices16`.
Wide indices are modelled as naturals (`uint32` values); the cache holds
already-truncated naturals below `2^16`. -/
structure MeshData where
  Vertices : List Vertex
  Indices32 : List ℕ
  mIndices16 : List ℕ

/-- `MeshData::GetIndices16` from `GeometryGenerator.h` lines 61–71:
if the cache `mIndices16` is empty it is resized to `Indices32.size()` and
filled with `static_cast<uint16>(Indices32[i])` (truncation mod `2^16`);
the cached vector is returned by reference.  The embedding returns the
value of the returned vector together with the post-state of the mesh. -/
def MeshData.GetIndices16 (m : MeshData) : List ℕ × MeshData :=
  if m.mIndices16 = [] then
    let idx := m.Indices32.map (fun i => i % 65536)
    (idx, { m with mIndices16 := idx })
  else
    (m.mIndices16, m)

/-- The cache after a call to `GetIndices16` holds exactly the sequence the
call returned (in the compute branch the cache is filled with the computed
sequence; in the cached branch the returned sequence is the cache). -/
theorem MeshData.cache_eq_result (m : MeshData) :
    (m.GetIndices16).2.mIndices16 = (m.GetIndices16).1 := by
  unfold MeshData.GetIndices16
  split <;> rfl

/-- `GetIndices16` never touches the public `Vertices` and `Indices32`
fields. -/
theorem MeshData.getIndices16_frame (m : MeshData) :
    (m.GetIndices16).2.Vertices = m.Vertices ∧
      (m.GetIndices16).2.Indices32 = m.Indices32 := by
  unfold MeshData.GetIndices16
  split <;> exact ⟨rfl, rfl⟩

/-- A second call to `GetIndices16` returns the first call's result and
leaves the state of the first call unchanged. -/
theorem MeshData.getIndices16_stable (m : MeshData) :
    ((m.GetIndices16).2).GetIndices16 =
      ((m.GetIndices16).1, (m.GetIndices16).2) := by
  unfold MeshData.GetIndices16
  by_cases h : m.mIndices16 = []
  · simp only [h, if_pos rfl]
    by_cases h32 : m.Indices32 = []
    · simp [h32]
    · have hmap : m.Indices32.map (fun i => i % 65536) ≠ [] := by
        simpa using h32
      simp [hmap]
  · simp [h]

/-- In the compute branch (empty cache) the returned sequence is the
pointwise truncation of `Indices32`. -/
theorem MeshData.getIndices16_of_empty (m : MeshData)
    (hc : m.mIndices16 = []) :
    (m.GetIndices16).1 = m.Indices32.map (fun i => i % 65536) := by
  unfold MeshData.GetIndices16
  simp [hc]

/-- C1: for a mesh with an empty narrow-index cache, at most 65536 vertices,
and every wide index a valid vertex offset, `GetIndices16` returns a
sequence equal, element by element, to `Indices32` (the truncation is the
identity below `2^16`). -/
theorem getIndices16_eq_indices32_of_small (m : MeshData)
    (hc : m.mIndices16 = [])
    (hv : m.Vertices.length ≤ 65536)
    (hidx : ∀ i ∈ m.Indices32, i < m.Vertices.length) :
    (m.GetIndices16).1 = m.Indices32 := by
  rw [MeshData.getIndices16_of_empty m hc]
  have : ∀ i ∈ m.Indices32, i % 65536 = i := by
    intro i hi
    exact Nat.mod_eq_of_lt (lt_of_lt_of_le (hidx i hi) hv)
  calc m.Indices32.map (fun i => i % 65536)
      = m.Indices32.map id := List.map_congr_left this
    _ = m.Indices32 := List.map_id m.Indices32

/-- Witness for C1 at a concrete one-vertex mesh. -/
theorem getIndices16_eq_indices32_of_small_witness :
    (({ Vertices := [⟨⟨0, 0, 0⟩, ⟨0, 1, 0⟩, ⟨1, 0, 0⟩, ⟨0, 0⟩⟩],
        Indices32 := [0, 0, 0], mIndices16 := [] } : MeshData).mIndices16 = [] ∧
     ({ Vertices := [⟨⟨0, 0, 0⟩, ⟨0, 1, 0⟩, ⟨1, 0, 0⟩, ⟨0, 0⟩⟩],
        Indices32 := [0, 0, 0], mIndices16 := [] } : MeshData).Vertices.length ≤ 65536) ∧
    (({ Vertices := [⟨⟨0, 0, 0⟩, ⟨0, 1, 0⟩, ⟨1, 0, 0⟩, ⟨0, 0⟩⟩],
        Indices32 := [0, 0, 0], mIndices16 := [] } : MeshData).GetIndices16).1 =
      [0, 0, 0] :=
  ⟨⟨rfl, by simp⟩,
    getIndices16_eq_indices32_of_small _ rfl (by simp)
      (by intro i hi; simp at hi; simp [hi])⟩

/-- With an empty cache the result has one element per wide index, each the
wide index mod `2^16` (shared auxiliary form of the compute branch). -/
theorem MeshData.getIndices16_len_elems (m : MeshData) (hc : m.mIndices16 = []) :
    (m.GetIndices16).1.length = m.Indices32.length ∧
      ∀ k, k < m.Indices32.length →
        (m.GetIndices16).1.getD k 0 = m.Indices32.getD k 0 % 65536 := by
  rw [MeshData.getIndices16_of_empty m hc]
  refine ⟨List.length_map _ _, ?_⟩
  intro k hk
  rw [List.getD_eq_getElem?_getD, List.getD_eq_getElem?_getD,
    List.getElem?_map, List.getElem?_eq_getElem hk]
  rfl

/-- C2: with an empty cache, `GetIndices16` returns a sequence of the same
length as `Indices32` whose `k`-th element is `Indices32[k] % 2^16`. -/
theorem getIndices16_truncates (m : MeshData) (hc : m.mIndices16 = []) :
    (m.GetIndices16).1.length = m.Indices32.length ∧
      ∀ k, k < m.Indices32.length →
        (m.GetIndices16).1.getD k 0 = m.Indices32.getD k 0 % 65536 :=
  MeshData.getIndices16_len_elems m hc

/-- Witness for C2 at a concrete mesh containing an index ≥ 2^16. -/
theorem getIndices16_truncates_witness :
    (({ Vertices := [], Indices32 := [70000, 3], mIndices16 := [] } : MeshData).mIndices16 = []) ∧
    ((({ Vertices := [], Indices32 := [70000, 3], mIndices16 := [] } : MeshData).GetIndices16).1.length =
        ({ Vertices := [], Indices32 := [70000, 3], mIndices16 := [] } : MeshData).Indices32.length ∧
      ∀ k, k < ({ Vertices := [], Indices32 := [70000, 3], mIndices16 := [] } : MeshData).Indices32.length →
        (({ Vertices := [], Indices32 := [70000, 3], mIndices16 := [] } : MeshData).GetIndices16).1.getD k 0 =
          ({ Vertices := [], Indices32 := [70000, 3], mIndices16 := [] } : MeshData).Indices32.getD k 0 % 65536) :=
  ⟨rfl, getIndices16_truncates _ rfl⟩

/-- C3: calling `GetIndices16` twice with no intervening modification
returns identical narrow-index sequences. -/
theorem getIndices16_twice_eq (m : MeshData) :
    (((m.GetIndices16).2).GetIndices16).1 = (m.GetIndices16).1 := by
  rw [MeshData.getIndices16_stable m]

/-- C4: `GetIndices16` never modifies `Vertices` or `Indices32`, and after
the first access the mesh state is a fixed point: a second call returns the
same sequence and performs no further state change (the cache is computed
at most once in any observable sense). -/
theorem getIndices16_frame_and_once (m : MeshData) :
    (m.GetIndices16).2.Vertices = m.Vertices ∧
      (m.GetIndices16).2.Indices32 = m.Indices32 ∧
      ((m.GetIndices16).2).GetIndices16 =
        ((m.GetIndices16).1, (m.GetIndices16).2) :=
  ⟨(MeshData.getIndices16_frame m).1, (MeshData.getIndices16_frame m).2,
    MeshData.getIndices16_stable m⟩

/-- C5: `GetIndices16` is total (it never reports an out-of-range
condition); on an empty cache it returns one narrow index per wide index,
and every wide index at or above `2^16` comes back wrapped, hence unequal
to the wide index, rather than as an error. -/
theorem getIndices16_wraps_no_error (m : MeshData) (hc : m.mIndices16 = []) :
    (m.GetIndices16).1.length = m.Indices32.length ∧
      ∀ k, k < m.Indices32.length → 65536 ≤ m.Indices32.getD k 0 →
        (m.GetIndices16).1.getD k 0 = m.Indices32.getD k 0 % 65536 ∧
          (m.GetIndices16).1.getD k 0 ≠ m.Indices32.getD k 0 := by
  obtain ⟨hlen, helem⟩ := MeshData.getIndices16_len_elems m hc
  refine ⟨hlen, ?_⟩
  intro k hk hbig
  refine ⟨helem k hk, ?_⟩
  rw [helem k hk]
  have hmod : m.Indices32.getD k 0 % 65536 < 65536 :=
    Nat.mod_lt _ (by norm_num)
  omega

/-- Witness for C5 at a mesh whose single wide index 70000 wraps to 4464. -/
theorem getIndices16_wraps_no_error_witness :
    (({ Vertices := [], Indices32 := [70000], mIndices16 := [] } : MeshData).mIndices16 = []) ∧
    ((({ Vertices := [], Indices32 := [70000], mIndices16 := [] } : MeshData).GetIndices16).1.length =
        ({ Vertices := [], Indices32 := [70000], mIndices16 := [] } : MeshData).Indices32.length ∧
      ∀ k, k < ({ Vertices := [], Indices32 := [70000], mIndices16 := [] } : MeshData).Indices32.length →
        65536 ≤ ({ Vertices := [], Indices32 := [70000], mIndices16 := [] } : MeshData).Indices32.getD k 0 →
        (({ Vertices := [], Indices32 := [70000], mIndices16 := [] } : MeshData).GetIndices16).1.getD k 0 =
            ({ Vertices := [], Indices32 := [70000], mIndices16 := [] } : MeshData).Indices32.getD k 0 % 65536 ∧
          (({ Vertices := [], Indices32 := [70000], mIndices16 := [] } : MeshData).GetIndices16).1.getD k 0 ≠
            ({ Vertices := [], Indices32 := [70000], mIndices16 := [] } : MeshData).Indices32.getD k 0) :=
  ⟨rfl, getIndices16_wraps_no_error _ rfl⟩

/-- A mesh with a non-empty cache returns the cache, whatever `Indices32`
holds. -/
theorem MeshData.getIndices16_of_nonempty (md : MeshData) (l : List ℕ)
    (h : md.mIndices16 ≠ []) :
    (({ md with Indices32 := l }).GetIndices16).1 = md.mIndices16 := by
  unfold MeshData.GetIndices16
  simp [h]

/-- C6: once a call to `GetIndices16` has produced a non-empty cache, any
later call returns that cached sequence even if `Indices32` has been
replaced in between: the cache is never invalidated. -/
theorem getIndices16_cached_ignores_indices32 (m : MeshData) (l : List ℕ)
    (h : (m.GetIndices16).2.mIndices16 ≠ []) :
    (({ (m.GetIndices16).2 with Indices32 := l }).GetIndices16).1 =
      (m.GetIndices16).1 := by
  rw [MeshData.getIndices16_of_nonempty _ l h, MeshData.cache_eq_result m]

/-- Witness for C6: the wide indices are replaced after the first call but
the stale cache `[2 % 65536] = [2]` is still returned. -/
theorem getIndices16_cached_ignores_indices32_witness :
    ((({ Vertices := [], Indices32 := [2], mIndices16 := [] } : MeshData).GetIndices16).2.mIndices16 ≠ []) ∧
    (({ (({ Vertices := [], Indices32 := [2], mIndices16 := [] } : MeshData).GetIndices16).2 with
        Indices32 := [5, 6, 7] }).GetIndices16).1 =
      (({ Vertices := [], Indices32 := [2], mIndices16 := [] } : MeshData).GetIndices16).1 :=
  ⟨by simp [MeshData.GetIndices16], getIndices16_cached_ignores_indices32 _ _ (by simp [MeshData.GetIndices16])⟩

/-- C10: the first-call result of `GetIndices16` is a function of
`Indices32` alone — two meshes with equal wide indices and empty caches get
equal narrow-index sequences whatever their `Vertices`. -/
theorem getIndices16_independent_of_vertices (m₁ m₂ : MeshData)
    (h : m₁.Indices32 = m₂.Indices32)
    (h₁ : m₁.mIndices16 = []) (h₂ : m₂.mIndices16 = []) :
    (m₁.GetIndices16).1 = (m₂.GetIndices16).1 := by
  rw [MeshData.getIndices16_of_empty m₁ h₁, MeshData.getIndices16_of_empty m₂ h₂, h]

/-- Witness for C10: same indices, different vertex buffers, same result. -/
theorem getIndices16_independent_of_vertices_witness :
    (({ Vertices := [], Indices32 := [1, 2], mIndices16 := [] } : MeshData).Indices32 =
        ({ Vertices := [⟨⟨0, 0, 0⟩, ⟨0, 1, 0⟩, ⟨1, 0, 0⟩, ⟨0, 0⟩⟩],
           Indices32 := [1, 2], mIndices16 := [] } : MeshData).Indices32 ∧
      ({ Vertices := [], Indices32 := [1, 2], mIndices16 := [] } : MeshData).mIndices16 = [] ∧
      ({ Vertices := [⟨⟨0, 0, 0⟩, ⟨0, 1, 0⟩, ⟨1, 0, 0⟩, ⟨0, 0⟩⟩],
         Indices32 := [1, 2], mIndices16 := [] } : MeshData).mIndices16 = []) ∧
    (({ Vertices := [], Indices32 := [1, 2], mIndices16 := [] } : MeshData).GetIndices16).1 =
      (({ Vertices := [⟨⟨0, 0, 0⟩, ⟨0, 1, 0⟩, ⟨1, 0, 0⟩, ⟨0, 0⟩⟩],
          Indices32 := [1, 2], mIndices16 := [] } : MeshData).GetIndices16).1 :=
  ⟨⟨rfl, rfl, rfl⟩, getIndices16_independent_of_vertices _ _ rfl rfl rfl⟩

/-! ## MidPoint (Subdivision Engine helper)

`GeometryGenerator::MidPoint` is declared at `GeometryGenerator.h:150` but
its body is not in the source tree; it is modelled from the spec (§4.9). -/

/-- Euclidean length of a 3-component vector. -/
noncomputable def norm3 (v : XMFLOAT3) : ℝ :=
  Real.sqrt (v.x ^ 2 + v.y ^ 2 + v.z ^ 2)

/-- Renormalization of a 3-component vector to unit length
(`XMVector3Normalize`). -/
noncomputable def normalize3 (v : XMFLOAT3) : XMFLOAT3 :=
  ⟨v.x / norm3 v, v.y / norm3 v, v.z / norm3 v⟩

/-- Component-wise linear interpolation at `t = 0.5` of two 3-component
vectors. -/
noncomputable def mid3 (a b : XMFLOAT3) : XMFLOAT3 :=
  ⟨(a.x + b.x) / 2, (a.y + b.y) / 2, (a.z + b.z) / 2⟩

/-- Component-wise linear interpolation at `t = 0.5` of two 2-component
vectors. -/
noncomputable def mid2 (a b : XMFLOAT2) : XMFLOAT2 :=
  ⟨(a.x + b.x) / 2, (a.y + b.y) / 2⟩

/-- Modelled from the spec: `GeometryGenerator::MidPoint` (declared at
`GeometryGenerator.h:150`, body missing from `src/`).  Per §4.9 it
"linearly interpolates position, normal, tangent, and texture coordinate
component-wise at t=0.5, then renormalizes the interpolated normal and
tangent to unit length". -/
noncomputable def MidPoint (v0 v1 : Vertex) : Vertex :=
  { Position := mid3 v0.Position v1.Position
    Normal := normalize3 (mid3 v0.Normal v1.Normal)
    TangentU := normalize3 (mid3 v0.TangentU v1.TangentU)
    TexC := mid2 v0.TexC v1.TexC }

theorem mid3_self (a : XMFLOAT3) : mid3 a a = a := by
  cases a with
  | mk x y z => simp only [mid3, XMFLOAT3.mk.injEq]; refine ⟨by ring, by ring, by ring⟩

theorem mid2_self (a : XMFLOAT2) : mid2 a a = a := by
  cases a with
  | mk x y => simp only [mid2, XMFLOAT2.mk.injEq]; exact ⟨by ring, by ring⟩

theorem normalize3_of_unit (v : XMFLOAT3) (h : norm3 v = 1) :
    normalize3 v = v := by
  cases v with
  | mk x y z =>
    simp only [normalize3, h, div_one]

/-- A vector with a nonzero component has positive squared length. -/
theorem sumsq_pos (v : XMFLOAT3) (h : v ≠ ⟨0, 0, 0⟩) :
    0 < v.x ^ 2 + v.y ^ 2 + v.z ^ 2 := by
  have hc : v.x ≠ 0 ∨ v.y ≠ 0 ∨ v.z ≠ 0 := by
    by_contra hcon
    push_neg at hcon
    exact h (by cases v; simp_all)
  have hx := sq_nonneg v.x
  have hy := sq_nonneg v.y
  have hz := sq_nonneg v.z
  rcases hc with h1 | h1 | h1 <;>
    · have h2 := pow_ne_zero 2 h1
      have h3 := lt_of_le_of_ne (sq_nonneg _) (Ne.symm h2)
      linarith

/-- Renormalizing a nonzero vector yields a unit vector. -/
theorem norm3_normalize3 (v : XMFLOAT3) (h : v ≠ ⟨0, 0, 0⟩) :
    norm3 (normalize3 v) = 1 := by
  have hs : 0 < v.x ^ 2 + v.y ^ 2 + v.z ^ 2 := sumsq_pos v h
  simp only [normalize3, norm3]
  rw [show (v.x / Real.sqrt (v.x ^ 2 + v.y ^ 2 + v.z ^ 2)) ^ 2 +
        (v.y / Real.sqrt (v.x ^ 2 + v.y ^ 2 + v.z ^ 2)) ^ 2 +
        (v.z / Real.sqrt (v.x ^ 2 + v.y ^ 2 + v.z ^ 2)) ^ 2 =
      (v.x ^ 2 + v.y ^ 2 + v.z ^ 2) /
        Real.sqrt (v.x ^ 2 + v.y ^ 2 + v.z ^ 2) ^ 2 from by ring]
  rw [Real.sq_sqrt hs.le, div_self hs.ne', Real.sqrt_one]

/-- C9: `MidPoint(v,v) = v` for every vertex `v` of the data model (§3 fixes
Normal and TangentU to be unit vectors); the midpoint's position is the
component-wise average of the endpoint positions; and whenever the
interpolated normal (resp. tangent) is nonzero, the returned normal
(resp. tangent) has been renormalized to unit length. -/
theorem midpoint_idempotent_and_averages (v v0 v1 : Vertex)
    (hn : norm3 v.Normal = 1) (ht : norm3 v.TangentU = 1) :
    MidPoint v v = v ∧
      ((MidPoint v0 v1).Position.x = (v0.Position.x + v1.Position.x) / 2 ∧
        (MidPoint v0 v1).Position.y = (v0.Position.y + v1.Position.y) / 2 ∧
        (MidPoint v0 v1).Position.z = (v0.Position.z + v1.Position.z) / 2) ∧
      (mid3 v0.Normal v1.Normal ≠ ⟨0, 0, 0⟩ →
        norm3 (MidPoint v0 v1).Normal = 1) ∧
      (mid3 v0.TangentU v1.TangentU ≠ ⟨0, 0, 0⟩ →
        norm3 (MidPoint v0 v1).TangentU = 1) := by
  refine ⟨?_, ⟨rfl, rfl, rfl⟩, ?_, ?_⟩
  · show ({ Position := mid3 v.Position v.Position
            Normal := normalize3 (mid3 v.Normal v.Normal)
            TangentU := normalize3 (mid3 v.TangentU v.TangentU)
            TexC := mid2 v.TexC v.TexC } : Vertex) = v
    rw [mid3_self, mid3_self, mid3_self, mid2_self,
      normalize3_of_unit _ hn, normalize3_of_unit _ ht]
  · intro hnz
    exact norm3_normalize3 _ hnz
  · intro hnz
    exact norm3_normalize3 _ hnz

/-- Witness for C9 at concrete unit-frame vertices. -/
theorem midpoint_idempotent_and_averages_witness :
    (norm3 (⟨⟨0, 0, 0⟩, ⟨0, 1, 0⟩, ⟨1, 0, 0⟩, ⟨0, 0⟩⟩ : Vertex).Normal = 1 ∧
      norm3 (⟨⟨0, 0, 0⟩, ⟨0, 1, 0⟩, ⟨1, 0, 0⟩, ⟨0, 0⟩⟩ : Vertex).TangentU = 1) ∧
    (MidPoint ⟨⟨0, 0, 0⟩, ⟨0, 1, 0⟩, ⟨1, 0, 0⟩, ⟨0, 0⟩⟩
        ⟨⟨0, 0, 0⟩, ⟨0, 1, 0⟩, ⟨1, 0, 0⟩, ⟨0, 0⟩⟩ =
      ⟨⟨0, 0, 0⟩, ⟨0, 1, 0⟩, ⟨1, 0, 0⟩, ⟨0, 0⟩⟩ ∧
      ((MidPoint (⟨⟨1, 2, 3⟩, ⟨0, 1, 0⟩, ⟨1, 0, 0⟩, ⟨0, 0⟩⟩ : Vertex)
          (⟨⟨3, 4, 5⟩, ⟨0, 1, 0⟩, ⟨1, 0, 0⟩, ⟨0, 0⟩⟩ : Vertex)).Position.x =
          ((⟨⟨1, 2, 3⟩, ⟨0, 1, 0⟩, ⟨1, 0, 0⟩, ⟨0, 0⟩⟩ : Vertex).Position.x +
            (⟨⟨3, 4, 5⟩, ⟨0, 1, 0⟩, ⟨1, 0, 0⟩, ⟨0, 0⟩⟩ : Vertex).Position.x) / 2 ∧
        (MidPoint (⟨⟨1, 2, 3⟩, ⟨0, 1, 0⟩, ⟨1, 0, 0⟩, ⟨0, 0⟩⟩ : Vertex)
          (⟨⟨3, 4, 5⟩, ⟨0, 1, 0⟩, ⟨1, 0, 0⟩, ⟨0, 0⟩⟩ : Vertex)).Position.y =
          ((⟨⟨1, 2, 3⟩, ⟨0, 1, 0⟩, ⟨1, 0, 0⟩, ⟨0, 0⟩⟩ : Vertex).Position.y +
            (⟨⟨3, 4, 5⟩, ⟨0, 1, 0⟩, ⟨1, 0, 0⟩, ⟨0, 0⟩⟩ : Vertex).Position.y) / 2 ∧
        (MidPoint (⟨⟨1, 2, 3⟩, ⟨0, 1, 0⟩, ⟨1, 0, 0⟩, ⟨0, 0⟩⟩ : Vertex)
          (⟨⟨3, 4, 5⟩, ⟨0, 1, 0⟩, ⟨1, 0, 0⟩, ⟨0, 0⟩⟩ : Vertex)).Position.z =
          ((⟨⟨1, 2, 3⟩, ⟨0, 1, 0⟩, ⟨1, 0, 0⟩, ⟨0, 0⟩⟩ : Vertex).Position.z +
            (⟨⟨3, 4, 5⟩, ⟨0, 1, 0⟩, ⟨1, 0, 0⟩, ⟨0, 0⟩⟩ : Vertex).Position.z) / 2) ∧
      (mid3 (⟨⟨1, 2, 3⟩, ⟨0, 1, 0⟩, ⟨1, 0, 0⟩, ⟨0, 0⟩⟩ : Vertex).Normal
          (⟨⟨3, 4, 5⟩, ⟨0, 1, 0⟩, ⟨1, 0, 0⟩, ⟨0, 0⟩⟩ : Vertex).Normal ≠ ⟨0, 0, 0⟩ →
        norm3 (MidPoint (⟨⟨1, 2, 3⟩, ⟨0, 1, 0⟩, ⟨1, 0, 0⟩, ⟨0, 0⟩⟩ : Vertex)
            (⟨⟨3, 4, 5⟩, ⟨0, 1, 0⟩, ⟨1, 0, 0⟩, ⟨0, 0⟩⟩ : Vertex)).Normal = 1) ∧
      (mid3 (⟨⟨1, 2, 3⟩, ⟨0, 1, 0⟩, ⟨1, 0, 0⟩, ⟨0, 0⟩⟩ : Vertex).TangentU
          (⟨⟨3, 4, 5⟩, ⟨0, 1, 0⟩, ⟨1, 0, 0⟩, ⟨0, 0⟩⟩ : Vertex).TangentU ≠ ⟨0, 0, 0⟩ →
        norm3 (MidPoint (⟨⟨1, 2, 3⟩, ⟨0, 1, 0⟩, ⟨1, 0, 0⟩, ⟨0, 0⟩⟩ : Vertex)
            (⟨⟨3, 4, 5⟩, ⟨0, 1, 0⟩, ⟨1, 0, 0⟩, ⟨0, 0⟩⟩ : Vertex)).TangentU = 1)) :=
  ⟨⟨by norm_num [norm3], by norm_num [norm3]⟩,
    midpoint_idempotent_and_averages _ _ _
      (by norm_num [norm3]) (by norm_num [norm3])⟩

/-! ## Subdivision Engine

`GeometryGenerator::Subdivide` is declared at `GeometryGenerator.h:147`;
its body is not in the source tree and is modelled from the spec (§4.9). -/

/-- The length of a concatenation of `n` constant-size blocks. -/
theorem length_flatMap_const {α : Type} (f : ℕ → List α) (c n : ℕ)
    (h : ∀ i, (f i).length = c) :
    ((List.range n).flatMap f).length = n * c := by
  induction n with
  | zero => simp
  | succ m ih =>
    rw [List.range_succ, List.flatMap_append]
    simp only [List.length_append, ih, List.flatMap_cons, List.flatMap_nil,
      List.append_nil, h m]
    ring

/-- Reading inside a concatenation of `n` constant-size blocks lands in the
expected block. -/
theorem getD_flatMap_const {α : Type} (f : ℕ → List α) (c n t k : ℕ) (d : α)
    (hc : ∀ i, (f i).length = c) (ht : t < n) (hk : k < c) :
    ((List.range n).flatMap f).getD (c * t + k) d = (f t).getD k d := by
  induction n with
  | zero => omega
  | succ m ih =>
    rw [List.range_succ, List.flatMap_append]
    simp only [List.flatMap_cons, List.flatMap_nil, List.append_nil]
    rcases Nat.lt_or_ge t m with h | h
    · rw [List.getD_append]
      · exact ih h
      · rw [length_flatMap_const f c m hc, Nat.mul_comm m c]
        calc c * t + k < c * (t + 1) := by rw [Nat.mul_succ]; omega
          _ ≤ c * m := Nat.mul_le_mul_left c h
    · have htm : t = m := by omega
      subst htm
      rw [List.getD_append_right]
      · rw [length_flatMap_const f c t hc, Nat.mul_comm t c]
        congr 1
        omega
      · rw [length_flatMap_const f c t hc, Nat.mul_comm t c]
        omega

/-- Default vertex used for out-of-range buffer reads in the embedding. -/
noncomputable def defVertex : Vertex := ⟨⟨0, 0, 0⟩, ⟨0, 0, 0⟩, ⟨0, 0, 0⟩, ⟨0, 0⟩⟩

/-- The `k`-th corner (k = 0, 1, 2) of triangle `t` of a mesh. -/
noncomputable def MeshData.triVert (md : MeshData) (t k : ℕ) : Vertex :=
  md.Vertices.getD (md.Indices32.getD (3 * t + k) 0) defVertex

/-- The six vertices `Subdivide` emits for input triangle `t`:
the three corners followed by the three edge midpoints
`m0 = mid(v0,v1)`, `m1 = mid(v1,v2)`, `m2 = mid(v2,v0)`. -/
noncomputable def subdivVertBlock (md : MeshData) (t : ℕ) : List Vertex :=
  [md.triVert t 0, md.triVert t 1, md.triVert t 2,
    MidPoint (md.triVert t 0) (md.triVert t 1),
    MidPoint (md.triVert t 1) (md.triVert t 2),
    MidPoint (md.triVert t 2) (md.triVert t 0)]

/-- The twelve indices `Subdivide` emits for input triangle `t`, encoding
the four triangles `(v0,m0,m2)`, `(m0,v1,m1)`, `(m2,m1,v2)`, `(m0,m1,m2)`
over the vertex block `[v0, v1, v2, m0, m1, m2]` at base offset `6t`. -/
def subdivIdxBlock (t : ℕ) : List ℕ :=
  [6 * t, 6 * t + 3, 6 * t + 5,
    6 * t + 3, 6 * t + 1, 6 * t + 4,
    6 * t + 5, 6 * t + 4, 6 * t + 2,
    6 * t + 3, 6 * t + 4, 6 * t + 5]

/-- Modelled from the spec: `GeometryGenerator::Subdivide` (declared at
`GeometryGenerator.h:147`, body missing from `src/`).  Per §4.9, for every
input triangle `(v0,v1,v2)` it computes the three edge midpoints and
replaces the triangle with the four triangles `(v0,m0,m2)`, `(m0,v1,m1)`,
`(m2,m1,v2)`, `(m0,m1,m2)`; each triangle subdivides independently (no
midpoint deduplication), so each input triangle contributes six fresh
vertices and twelve fresh indices. -/
noncomputable def Subdivide (md : MeshData) : MeshData :=
  let numTris := md.Indices32.length / 3
  { Vertices := (List.range numTris).flatMap (subdivVertBlock md)
    Indices32 := (List.range numTris).flatMap subdivIdxBlock
    mIndices16 := [] }

theorem subdivide_indices_length (md : MeshData) :
    (Subdivide md).Indices32.length = (md.Indices32.length / 3) * 12 :=
  length_flatMap_const subdivIdxBlock 12 _ (fun _ => rfl)

theorem subdivide_vertices_length (md : MeshData) :
    (Subdivide md).Vertices.length = (md.Indices32.length / 3) * 6 :=
  length_flatMap_const (subdivVertBlock md) 6 _ (fun _ => rfl)

/-- C8: one pass of `Subdivide` over a mesh with `T` triangles yields
`4T` triangles, a second pass `16T`; the six vertices emitted for input
triangle `t` are its three original corners (positions unchanged) followed
by the three edge midpoints, and its twelve indices encode exactly the four
triangles `(v0,m0,m2)`, `(m0,v1,m1)`, `(m2,m1,v2)`, `(m0,m1,m2)`. -/
theorem subdivide_one_to_four (md : MeshData) (T : ℕ)
    (h : md.Indices32.length = 3 * T) :
    (Subdivide md).Indices32.length = 3 * (4 * T) ∧
      (Subdivide (Subdivide md)).Indices32.length = 3 * (16 * T) ∧
      ∀ t, t < T →
        (∀ k, k < 6 →
          (Subdivide md).Vertices.getD (6 * t + k) defVertex =
            (subdivVertBlock md t).getD k defVertex) ∧
        (∀ k, k < 12 →
          (Subdivide md).Indices32.getD (12 * t + k) 0 =
            (subdivIdxBlock t).getD k 0) := by
  have hT : md.Indices32.length / 3 = T := by omega
  refine ⟨?_, ?_, ?_⟩
  · rw [subdivide_indices_length, hT]; ring
  · rw [subdivide_indices_length, subdivide_indices_length, hT]
    omega
  · intro t ht
    constructor
    · intro k hk
      show ((List.range (md.Indices32.length / 3)).flatMap
          (subdivVertBlock md)).getD (6 * t + k) defVertex = _
      rw [hT]
      exact getD_flatMap_const (subdivVertBlock md) 6 T t k defVertex
        (fun _ => rfl) ht hk
    · intro k hk
      show ((List.range (md.Indices32.length / 3)).flatMap
          subdivIdxBlock).getD (12 * t + k) 0 = _
      rw [hT]
      exact getD_flatMap_const subdivIdxBlock 12 T t k 0
        (fun _ => rfl) ht hk

/-- A concrete one-triangle mesh used to witness the subdivision theorem. -/
def triMesh : MeshData :=
  { Vertices := [⟨⟨0, 0, 0⟩, ⟨0, 1, 0⟩, ⟨1, 0, 0⟩, ⟨0, 0⟩⟩,
      ⟨⟨1, 0, 0⟩, ⟨0, 1, 0⟩, ⟨1, 0, 0⟩, ⟨0, 0⟩⟩,
      ⟨⟨0, 0, 1⟩, ⟨0, 1, 0⟩, ⟨1, 0, 0⟩, ⟨0, 0⟩⟩]
    Indices32 := [0, 1, 2]
    mIndices16 := [] }

/-- Witness for C8 at a concrete one-triangle mesh. -/
theorem subdivide_one_to_four_witness :
    triMesh.Indices32.length = 3 * 1 ∧
      ((Subdivide triMesh).Indices32.length = 3 * (4 * 1) ∧
        (Subdivide (Subdivide triMesh)).Indices32.length = 3 * (16 * 1) ∧
        ∀ t, t < 1 →
          (∀ k, k < 6 →
            (Subdivide triMesh).Vertices.getD (6 * t + k) defVertex =
              (subdivVertBlock triMesh t).getD k defVertex) ∧
          (∀ k, k < 12 →
            (Subdivide triMesh).Indices32.getD (12 * t + k) 0 =
              (subdivIdxBlock t).getD k 0)) :=
  ⟨rfl, subdivide_one_to_four triMesh 1 rfl⟩

/-! ## Shape generators

All generator bodies are declared in `GeometryGenerator.h` but implemented
in a `.cpp` file missing from `src/`; each is modelled from the spec. -/

/-- §3 invariants of a Mesh Container: the wide index count is a multiple
of three and every wide index is a valid vertex offset. -/
def meshValid (md : MeshData) : Prop :=
  md.Indices32.length % 3 = 0 ∧ ∀ i ∈ md.Indices32, i < md.Vertices.length

/-- Bound for the corner indices of a lattice cell: inside an `m × n`
row-major lattice, any corner of cell `(i, j)` is a valid offset. -/
theorem latticeCellBound (m n i j a b : ℕ) (hi : i < m - 1) (hj : j < n - 1)
    (ha : a ≤ i + 1) (hb : b ≤ j + 1) : a * n + b < m * n := by
  calc a * n + b ≤ (i + 1) * n + b :=
        Nat.add_le_add_right (Nat.mul_le_mul_right n ha) b
    _ < (i + 1) * n + n := by omega
    _ = (i + 2) * n := by ring
    _ ≤ m * n := Nat.mul_le_mul_right n (by omega)

/-- Lattice vertex `(i, j)` of the grid: planar position in the XZ-plane,
upward normal, tangent along +X, UV spanning `[0,1]` across the lattice. -/
noncomputable def gridVertex (width depth : ℝ) (m n i j : ℕ) : Vertex :=
  { Position := ⟨-(width / 2) + j * (width / ((n : ℝ) - 1)), 0,
      depth / 2 - i * (depth / ((m : ℝ) - 1))⟩
    Normal := ⟨0, 1, 0⟩
    TangentU := ⟨1, 0, 0⟩
    TexC := ⟨j * (1 / ((n : ℝ) - 1)), i * (1 / ((m : ℝ) - 1))⟩ }

/-- Modelled from the spec: `GeometryGenerator::CreateGrid`
(`GeometryGenerator.h:141`, body missing from `src/`).  §4.8: an `m×n`
row-major planar lattice centered at the origin spanning width × depth;
each of the `(m-1)×(n-1)` cells is split into two triangles. -/
noncomputable def CreateGrid (width depth : ℝ) (m n : ℕ) : MeshData :=
  { Vertices := (List.range m).flatMap (fun i =>
      (List.range n).map (fun j => gridVertex width depth m n i j))
    Indices32 := (List.range (m - 1)).flatMap (fun i =>
      (List.range (n - 1)).flatMap (fun j =>
        [i * n + j, i * n + j + 1, (i + 1) * n + j,
          (i + 1) * n + j, i * n + j + 1, (i + 1) * n + j + 1]))
    mIndices16 := [] }

theorem createGrid_vertices_length (width depth : ℝ) (m n : ℕ) :
    (CreateGrid width depth m n).Vertices.length = m * n := by
  have hV : (CreateGrid width depth m n).Vertices =
      (List.range m).flatMap (fun i =>
        (List.range n).map (fun j => gridVertex width depth m n i j)) := rfl
  rw [hV, length_flatMap_const _ n m
    (fun i => by rw [List.length_map, List.length_range])]

theorem createGrid_valid (width depth : ℝ) (m n : ℕ) :
    meshValid (CreateGrid width depth m n) := by
  have hI : (CreateGrid width depth m n).Indices32 =
      (List.range (m - 1)).flatMap (fun i =>
        (List.range (n - 1)).flatMap (fun j =>
          [i * n + j, i * n + j + 1, (i + 1) * n + j,
            (i + 1) * n + j, i * n + j + 1, (i + 1) * n + j + 1])) := rfl
  have hblk : ∀ i : ℕ, ((List.range (n - 1)).flatMap (fun j =>
      [i * n + j, i * n + j + 1, (i + 1) * n + j,
        (i + 1) * n + j, i * n + j + 1, (i + 1) * n + j + 1])).length =
      (n - 1) * 6 :=
    fun i => length_flatMap_const _ 6 (n - 1) (fun j => rfl)
  constructor
  · rw [hI, length_flatMap_const _ ((n - 1) * 6) (m - 1) hblk]
    rw [show (m - 1) * ((n - 1) * 6) = 3 * ((m - 1) * ((n - 1) * 2)) from by ring]
    simp [Nat.mul_mod_right]
  · intro idx hidx
    rw [createGrid_vertices_length]
    rw [hI] at hidx
    simp only [List.mem_flatMap, List.mem_range] at hidx
    obtain ⟨i, hi, j, hj, hmem⟩ := hidx
    have h1 := latticeCellBound m n i j i j hi hj (by omega) (by omega)
    have h2 := latticeCellBound m n i j i (j + 1) hi hj (by omega) (by omega)
    have h3 := latticeCellBound m n i j (i + 1) j hi hj (by omega) (by omega)
    have h4 := latticeCellBound m n i j (i + 1) (j + 1) hi hj (by omega) (by omega)
    simp only [List.mem_cons, List.not_mem_nil, or_false] at hmem
    rcases hmem with rfl | rfl | rfl | rfl | rfl | rfl <;> omega

/-- Modelled from the spec: `GeometryGenerator::CreateQuad`
(`GeometryGenerator.h:146`, body missing from `src/`).  §4.8: four corner
vertices of a screen-aligned rectangle at a fixed depth and a trivial
two-triangle index list. -/
noncomputable def CreateQuad (x y w h depth : ℝ) : MeshData :=
  { Vertices := [
      ⟨⟨x, y - h, depth⟩, ⟨0, 0, -1⟩, ⟨1, 0, 0⟩, ⟨0, 1⟩⟩,
      ⟨⟨x, y, depth⟩, ⟨0, 0, -1⟩, ⟨1, 0, 0⟩, ⟨0, 0⟩⟩,
      ⟨⟨x + w, y, depth⟩, ⟨0, 0, -1⟩, ⟨1, 0, 0⟩, ⟨1, 0⟩⟩,
      ⟨⟨x + w, y - h, depth⟩, ⟨0, 0, -1⟩, ⟨1, 0, 0⟩, ⟨1, 1⟩⟩]
    Indices32 := [0, 1, 2, 0, 2, 3]
    mIndices16 := [] }

theorem createQuad_valid (x y w h depth : ℝ) :
    meshValid (CreateQuad x y w h depth) := by
  have hI : (CreateQuad x y w h depth).Indices32 = [0, 1, 2, 0, 2, 3] := rfl
  have hV : (CreateQuad x y w h depth).Vertices.length = 4 := by
    simp [CreateQuad]
  constructor
  · rw [hI]
    rfl
  · intro i hi
    rw [hV]
    rw [hI] at hi
    simp only [List.mem_cons, List.not_mem_nil, or_false] at hi
    rcases hi with rfl | rfl | rfl | rfl | rfl | rfl <;> omega

/-- Ring vertex `(i, j)` of the latitude/longitude sphere: spherical
coordinates with polar angle stepped `π/stackCount` and azimuth stepped
`2π/sliceCount`; the normal is the normalized position and the tangent the
normalized θ-derivative of the position. -/
noncomputable def sphereRingVertex (radius : ℝ) (sliceCount stackCount i j : ℕ) : Vertex :=
  let φ := ((i : ℝ) + 1) * (Real.pi / stackCount)
  let θ := (j : ℝ) * (2 * Real.pi / sliceCount)
  let p : XMFLOAT3 := ⟨radius * Real.sin φ * Real.cos θ,
    radius * Real.cos φ, radius * Real.sin φ * Real.sin θ⟩
  { Position := p
    Normal := normalize3 p
    TangentU := normalize3 ⟨-radius * Real.sin φ * Real.sin θ, 0,
      radius * Real.sin φ * Real.cos θ⟩
    TexC := ⟨θ / (2 * Real.pi), φ / Real.pi⟩ }

/-- Modelled from the spec: `GeometryGenerator::CreateSphere`
(`GeometryGenerator.h:87`, body missing from `src/`).  §4.2: a top pole
vertex, `stackCount-1` rings of `sliceCount+1` vertices (seam duplicated),
a bottom pole vertex; a fan connects each pole to its nearest ring and
adjacent rings are joined by quads split into two triangles. -/
noncomputable def CreateSphere (radius : ℝ) (sliceCount stackCount : ℕ) : MeshData :=
  let rvc := sliceCount + 1
  let vc := (stackCount - 1) * rvc + 2
  { Vertices :=
      [⟨⟨0, radius, 0⟩, ⟨0, 1, 0⟩, ⟨1, 0, 0⟩, ⟨0, 0⟩⟩] ++
        (List.range (stackCount - 1)).flatMap (fun i =>
          (List.range rvc).map (sphereRingVertex radius sliceCount stackCount i)) ++
        [⟨⟨0, -radius, 0⟩, ⟨0, -1, 0⟩, ⟨1, 0, 0⟩, ⟨0, 1⟩⟩]
    Indices32 :=
      (List.range sliceCount).flatMap (fun i => [0, i + 2, i + 1]) ++
        (List.range (stackCount - 2)).flatMap (fun i =>
          (List.range sliceCount).flatMap (fun j =>
            [1 + i * rvc + j, 1 + i * rvc + j + 1, 1 + (i + 1) * rvc + j,
              1 + (i + 1) * rvc + j, 1 + i * rvc + j + 1,
              1 + (i + 1) * rvc + j + 1])) ++
        (List.range sliceCount).flatMap (fun i =>
          [vc - 1, vc - 1 - rvc + i, vc - 1 - rvc + i + 1])
    mIndices16 := [] }

theorem createSphere_vertices_length (radius : ℝ) (sliceCount stackCount : ℕ) :
    (CreateSphere radius sliceCount stackCount).Vertices.length =
      (stackCount - 1) * (sliceCount + 1) + 2 := by
  have hV : (CreateSphere radius sliceCount stackCount).Vertices =
      [⟨⟨0, radius, 0⟩, ⟨0, 1, 0⟩, ⟨1, 0, 0⟩, ⟨0, 0⟩⟩] ++
        (List.range (stackCount - 1)).flatMap (fun i =>
          (List.range (sliceCount + 1)).map
            (sphereRingVertex radius sliceCount stackCount i)) ++
        [⟨⟨0, -radius, 0⟩, ⟨0, -1, 0⟩, ⟨1, 0, 0⟩, ⟨0, 1⟩⟩] := rfl
  rw [hV, List.length_append, List.length_append,
    length_flatMap_const _ (sliceCount + 1) (stackCount - 1)
      (fun i => by rw [List.length_map, List.length_range])]
  simp only [List.length_cons, List.length_nil]
  omega

theorem createSphere_valid (radius : ℝ) (sliceCount stackCount : ℕ)
    (hst : 2 ≤ stackCount) :
    meshValid (CreateSphere radius sliceCount stackCount) := by
  have hI : (CreateSphere radius sliceCount stackCount).Indices32 =
      (List.range sliceCount).flatMap (fun i => [0, i + 2, i + 1]) ++
        (List.range (stackCount - 2)).flatMap (fun i =>
          (List.range sliceCount).flatMap (fun j =>
            [1 + i * (sliceCount + 1) + j, 1 + i * (sliceCount + 1) + j + 1,
              1 + (i + 1) * (sliceCount + 1) + j,
              1 + (i + 1) * (sliceCount + 1) + j,
              1 + i * (sliceCount + 1) + j + 1,
              1 + (i + 1) * (sliceCount + 1) + j + 1])) ++
        (List.range sliceCount).flatMap (fun i =>
          [(stackCount - 1) * (sliceCount + 1) + 2 - 1,
            (stackCount - 1) * (sliceCount + 1) + 2 - 1 - (sliceCount + 1) + i,
            (stackCount - 1) * (sliceCount + 1) + 2 - 1 - (sliceCount + 1) + i + 1]) := rfl
  have hblk : ∀ i : ℕ, ((List.range sliceCount).flatMap (fun j =>
      [1 + i * (sliceCount + 1) + j, 1 + i * (sliceCount + 1) + j + 1,
        1 + (i + 1) * (sliceCount + 1) + j,
        1 + (i + 1) * (sliceCount + 1) + j,
        1 + i * (sliceCount + 1) + j + 1,
        1 + (i + 1) * (sliceCount + 1) + j + 1])).length = sliceCount * 6 :=
    fun i => length_flatMap_const _ 6 sliceCount (fun j => rfl)
  have hmono : sliceCount + 1 ≤ (stackCount - 1) * (sliceCount + 1) :=
    Nat.le_mul_of_pos_left _ (by omega)
  have hfan1 : ((List.range sliceCount).flatMap
      (fun i => [0, i + 2, i + 1])).length = sliceCount * 3 :=
    length_flatMap_const _ 3 sliceCount (fun i => rfl)
  have hfan2 : ((List.range sliceCount).flatMap (fun i =>
      [(stackCount - 1) * (sliceCount + 1) + 2 - 1,
        (stackCount - 1) * (sliceCount + 1) + 2 - 1 - (sliceCount + 1) + i,
        (stackCount - 1) * (sliceCount + 1) + 2 - 1 - (sliceCount + 1) + i +
          1])).length = sliceCount * 3 :=
    length_flatMap_const _ 3 sliceCount (fun i => rfl)
  constructor
  · rw [hI, List.length_append, List.length_append, hfan1,
      length_flatMap_const _ (sliceCount * 6) (stackCount - 2) hblk, hfan2]
    rw [show sliceCount * 3 + (stackCount - 2) * (sliceCount * 6) +
        sliceCount * 3 =
        3 * (sliceCount * 2 + (stackCount - 2) * (sliceCount * 2)) from by ring]
    simp [Nat.mul_mod_right]
  · intro idx hidx
    rw [createSphere_vertices_length]
    rw [hI] at hidx
    simp only [List.mem_append, List.mem_flatMap, List.mem_range] at hidx
    rcases hidx with (⟨i, hi, hmem⟩ | ⟨i, hi, j, hj, hmem⟩) | ⟨i, hi, hmem⟩
    · simp only [List.mem_cons, List.not_mem_nil, or_false] at hmem
      rcases hmem with rfl | rfl | rfl <;> omega
    · have h1 := latticeCellBound (stackCount - 1) (sliceCount + 1) i j i j
        (by omega) (by omega) (by omega) (by omega)
      have h2 := latticeCellBound (stackCount - 1) (sliceCount + 1) i j i (j + 1)
        (by omega) (by omega) (by omega) (by omega)
      have h3 := latticeCellBound (stackCount - 1) (sliceCount + 1) i j (i + 1) j
        (by omega) (by omega) (by omega) (by omega)
      have h4 := latticeCellBound (stackCount - 1) (sliceCount + 1) i j (i + 1) (j + 1)
        (by omega) (by omega) (by omega) (by omega)
      simp only [List.mem_cons, List.not_mem_nil, or_false] at hmem
      rcases hmem with rfl | rfl | rfl | rfl | rfl | rfl <;> omega
    · simp only [List.mem_cons, List.not_mem_nil, or_false] at hmem
      rcases hmem with rfl | rfl | rfl <;> omega

/-- Cross product of two 3-component vectors. -/
noncomputable def cross3 (a b : XMFLOAT3) : XMFLOAT3 :=
  ⟨a.y * b.z - a.z * b.y, a.z * b.x - a.x * b.z, a.x * b.y - a.y * b.x⟩

/-- Wall ring vertex `(i, j)` of the cylinder: ring radius linearly
interpolated between the bottom and top radii; tangent along the
circumference; normal the normalized cross product of the circumferential
tangent and the slope ("bitangent") direction, accounting for the taper
`(bottomRadius - topRadius) / height`. -/
noncomputable def cylinderRingVertex (bottomRadius topRadius height : ℝ)
    (sliceCount stackCount i j : ℕ) : Vertex :=
  let y := -(height / 2) + (i : ℝ) * (height / stackCount)
  let r := bottomRadius + (i : ℝ) * ((topRadius - bottomRadius) / stackCount)
  let θ := (j : ℝ) * (2 * Real.pi / sliceCount)
  let c := Real.cos θ
  let s := Real.sin θ
  let dr := bottomRadius - topRadius
  { Position := ⟨r * c, y, r * s⟩
    Normal := normalize3 (cross3 ⟨-s, 0, c⟩ ⟨dr * c, -height, dr * s⟩)
    TangentU := ⟨-s, 0, c⟩
    TexC := ⟨(j : ℝ) / sliceCount, 1 - (i : ℝ) / stackCount⟩ }

/-- Side wall of the cylinder: `stackCount+1` rings of `sliceCount+1`
vertices (seam duplicated); each wall cell is split into two triangles. -/
noncomputable def CreateCylinderWall (bottomRadius topRadius height : ℝ)
    (sliceCount stackCount : ℕ) : MeshData :=
  let rvc := sliceCount + 1
  { Vertices := (List.range (stackCount + 1)).flatMap (fun i =>
      (List.range rvc).map
        (cylinderRingVertex bottomRadius topRadius height sliceCount stackCount i))
    Indices32 := (List.range stackCount).flatMap (fun i =>
      (List.range sliceCount).flatMap (fun j =>
        [i * rvc + j, (i + 1) * rvc + j, (i + 1) * rvc + j + 1,
          i * rvc + j, (i + 1) * rvc + j + 1, i * rvc + j + 1]))
    mIndices16 := [] }

theorem createCylinderWall_vertices_length (bottomRadius topRadius height : ℝ)
    (sliceCount stackCount : ℕ) :
    (CreateCylinderWall bottomRadius topRadius height sliceCount
        stackCount).Vertices.length = (stackCount + 1) * (sliceCount + 1) := by
  have hV : (CreateCylinderWall bottomRadius topRadius height sliceCount
      stackCount).Vertices =
      (List.range (stackCount + 1)).flatMap (fun i =>
        (List.range (sliceCount + 1)).map
          (cylinderRingVertex bottomRadius topRadius height sliceCount
            stackCount i)) := rfl
  rw [hV, length_flatMap_const _ (sliceCount + 1) (stackCount + 1)
    (fun i => by rw [List.length_map, List.length_range])]

theorem createCylinderWall_valid (bottomRadius topRadius height : ℝ)
    (sliceCount stackCount : ℕ) :
    meshValid (CreateCylinderWall bottomRadius topRadius height sliceCount
      stackCount) := by
  have hI : (CreateCylinderWall bottomRadius topRadius height sliceCount
      stackCount).Indices32 =
      (List.range stackCount).flatMap (fun i =>
        (List.range sliceCount).flatMap (fun j =>
          [i * (sliceCount + 1) + j, (i + 1) * (sliceCount + 1) + j,
            (i + 1) * (sliceCount + 1) + j + 1,
            i * (sliceCount + 1) + j, (i + 1) * (sliceCount + 1) + j + 1,
            i * (sliceCount + 1) + j + 1])) := rfl
  have hblk : ∀ i : ℕ, ((List.range sliceCount).flatMap (fun j =>
      [i * (sliceCount + 1) + j, (i + 1) * (sliceCount + 1) + j,
        (i + 1) * (sliceCount + 1) + j + 1,
        i * (sliceCount + 1) + j, (i + 1) * (sliceCount + 1) + j + 1,
        i * (sliceCount + 1) + j + 1])).length = sliceCount * 6 :=
    fun i => length_flatMap_const _ 6 sliceCount (fun j => rfl)
  constructor
  · rw [hI, length_flatMap_const _ (sliceCount * 6) stackCount hblk]
    rw [show stackCount * (sliceCount * 6) =
        3 * (stackCount * (sliceCount * 2)) from by ring]
    simp [Nat.mul_mod_right]
  · intro idx hidx
    rw [createCylinderWall_vertices_length]
    rw [hI] at hidx
    simp only [List.mem_flatMap, List.mem_range] at hidx
    obtain ⟨i, hi, j, hj, hmem⟩ := hidx
    have h1 := latticeCellBound (stackCount + 1) (sliceCount + 1) i j i j
      (by omega) (by omega) (by omega) (by omega)
    have h2 := latticeCellBound (stackCount + 1) (sliceCount + 1) i j i (j + 1)
      (by omega) (by omega) (by omega) (by omega)
    have h3 := latticeCellBound (stackCount + 1) (sliceCount + 1) i j (i + 1) j
      (by omega) (by omega) (by omega) (by omega)
    have h4 := latticeCellBound (stackCount + 1) (sliceCount + 1) i j (i + 1)
      (j + 1) (by omega) (by omega) (by omega) (by omega)
    simp only [List.mem_cons, List.not_mem_nil, or_false] at hmem
    rcases hmem with rfl | rfl | rfl | rfl | rfl | rfl <;> omega

/-- Cap ring vertex `i` at height `y`: duplicated ring position with the
constant cap normal `(0, ±1, 0)` and planar texture coordinates. -/
noncomputable def capRingVertex (radius y ny height : ℝ) (sliceCount i : ℕ) : Vertex :=
  let θ := (i : ℝ) * (2 * Real.pi / sliceCount)
  let x := radius * Real.cos θ
  let z := radius * Real.sin θ
  { Position := ⟨x, y, z⟩
    Normal := ⟨0, ny, 0⟩
    TangentU := ⟨1, 0, 0⟩
    TexC := ⟨x / height + 0.5, z / height + 0.5⟩ }

/-- Modelled from the spec: `GeometryGenerator::BuildCylinderTopCap`
(`GeometryGenerator.h:151`, body missing from `src/`).  §4.5: appends a
duplicated ring of `sliceCount+1` cap vertices plus one shared center
vertex and closes the top with a triangle fan. -/
noncomputable def BuildCylinderTopCap (bottomRadius topRadius height : ℝ)
    (sliceCount stackCount : ℕ) (md : MeshData) : MeshData :=
  let base := md.Vertices.length
  let center := base + sliceCount + 1
  { Vertices := md.Vertices ++
      ((List.range (sliceCount + 1)).map
          (capRingVertex topRadius (height / 2) 1 height sliceCount) ++
        [⟨⟨0, height / 2, 0⟩, ⟨0, 1, 0⟩, ⟨1, 0, 0⟩, ⟨0.5, 0.5⟩⟩])
    Indices32 := md.Indices32 ++ (List.range sliceCount).flatMap (fun i =>
      [center, base + i + 1, base + i])
    mIndices16 := md.mIndices16 }

/-- Modelled from the spec: `GeometryGenerator::BuildCylinderBottomCap`
(`GeometryGenerator.h:152`, body missing from `src/`).  §4.5: the mirror
image of the top cap at `-height/2`, with downward normal and reversed
fan winding. -/
noncomputable def BuildCylinderBottomCap (bottomRadius topRadius height : ℝ)
    (sliceCount stackCount : ℕ) (md : MeshData) : MeshData :=
  let base := md.Vertices.length
  let center := base + sliceCount + 1
  { Vertices := md.Vertices ++
      ((List.range (sliceCount + 1)).map
          (capRingVertex bottomRadius (-(height / 2)) (-1) height sliceCount) ++
        [⟨⟨0, -(height / 2), 0⟩, ⟨0, -1, 0⟩, ⟨1, 0, 0⟩, ⟨0.5, 0.5⟩⟩])
    Indices32 := md.Indices32 ++ (List.range sliceCount).flatMap (fun i =>
      [center, base + i, base + i + 1])
    mIndices16 := md.mIndices16 }

theorem buildCylinderTopCap_valid (bottomRadius topRadius height : ℝ)
    (sliceCount stackCount : ℕ) (md : MeshData) (h : meshValid md) :
    meshValid (BuildCylinderTopCap bottomRadius topRadius height sliceCount
      stackCount md) := by
  obtain ⟨hlen, hbound⟩ := h
  have hV : (BuildCylinderTopCap bottomRadius topRadius height sliceCount
      stackCount md).Vertices.length = md.Vertices.length + (sliceCount + 2) := by
    show (md.Vertices ++ _).length = _
    rw [List.length_append, List.length_append, List.length_map,
      List.length_range]
    simp
  have hfan : ((List.range sliceCount).flatMap (fun i =>
      [md.Vertices.length + sliceCount + 1, md.Vertices.length + i + 1,
        md.Vertices.length + i])).length = sliceCount * 3 :=
    length_flatMap_const _ 3 sliceCount (fun i => rfl)
  constructor
  · show (md.Indices32 ++ _).length % 3 = 0
    rw [List.length_append, hfan]
    omega
  · intro idx hidx
    rw [hV]
    rcases List.mem_append.mp hidx with hold | hnew
    · exact lt_of_lt_of_le (hbound idx hold) (by omega)
    · simp only [List.mem_flatMap, List.mem_range] at hnew
      obtain ⟨i, hi, hmem⟩ := hnew
      simp only [List.mem_cons, List.not_mem_nil, or_false] at hmem
      rcases hmem with rfl | rfl | rfl <;> omega

theorem buildCylinderBottomCap_valid (bottomRadius topRadius height : ℝ)
    (sliceCount stackCount : ℕ) (md : MeshData) (h : meshValid md) :
    meshValid (BuildCylinderBottomCap bottomRadius topRadius height sliceCount
      stackCount md) := by
  obtain ⟨hlen, hbound⟩ := h
  have hV : (BuildCylinderBottomCap bottomRadius topRadius height sliceCount
      stackCount md).Vertices.length = md.Vertices.length + (sliceCount + 2) := by
    show (md.Vertices ++ _).length = _
    rw [List.length_append, List.length_append, List.length_map,
      List.length_range]
    simp
  have hfan : ((List.range sliceCount).flatMap (fun i =>
      [md.Vertices.length + sliceCount + 1, md.Vertices.length + i,
        md.Vertices.length + i + 1])).length = sliceCount * 3 :=
    length_flatMap_const _ 3 sliceCount (fun i => rfl)
  constructor
  · show (md.Indices32 ++ _).length % 3 = 0
    rw [List.length_append, hfan]
    omega
  · intro idx hidx
    rw [hV]
    rcases List.mem_append.mp hidx with hold | hnew
    · exact lt_of_lt_of_le (hbound idx hold) (by omega)
    · simp only [List.mem_flatMap, List.mem_range] at hnew
      obtain ⟨i, hi, hmem⟩ := hnew
      simp only [List.mem_cons, List.not_mem_nil, or_false] at hmem
      rcases hmem with rfl | rfl | rfl <;> omega

/-- Modelled from the spec: `GeometryGenerator::CreateCylinder`
(`GeometryGenerator.h:100`, body missing from `src/`).  §4.4: the side wall
plus the two cap builders. -/
noncomputable def CreateCylinder (bottomRadius topRadius height : ℝ)
    (sliceCount stackCount : ℕ) : MeshData :=
  BuildCylinderBottomCap bottomRadius topRadius height sliceCount stackCount
    (BuildCylinderTopCap bottomRadius topRadius height sliceCount stackCount
      (CreateCylinderWall bottomRadius topRadius height sliceCount stackCount))

theorem createCylinder_valid (bottomRadius topRadius height : ℝ)
    (sliceCount stackCount : ℕ) :
    meshValid (CreateCylinder bottomRadius topRadius height sliceCount
      stackCount) :=
  buildCylinderBottomCap_valid _ _ _ _ _ _
    (buildCylinderTopCap_valid _ _ _ _ _ _
      (createCylinderWall_valid bottomRadius topRadius height sliceCount
        stackCount))

/-- Modelled from the spec: `GeometryGenerator::CreateCone`
(`GeometryGenerator.h:123`): the cylinder with the top radius fixed to 0,
collapsing the top ring to an apex. -/
noncomputable def CreateCone (bottomRadius height : ℝ)
    (sliceCount stackCount : ℕ) : MeshData :=
  CreateCylinder bottomRadius 0 height sliceCount stackCount

/-- Modelled from the spec: `GeometryGenerator::CreatePyramid`
(`GeometryGenerator.h:130`): the cylinder with the top radius 0 and the
slice count fixed to 4 (square-base pyramid). -/
noncomputable def CreatePyramid (bottomRadius height : ℝ)
    (stackCount : ℕ) : MeshData :=
  CreateCylinder bottomRadius 0 height 4 stackCount

/-- Modelled from the spec: `GeometryGenerator::CreateTrianglePrism`
(`GeometryGenerator.h:135`): the cylinder with the slice count fixed to 3
and equal top and bottom radii. -/
noncomputable def CreateTrianglePrism (bottomRadius height : ℝ)
    (stackCount : ℕ) : MeshData :=
  CreateCylinder bottomRadius bottomRadius height 3 stackCount

/-- A subdivision pass always yields a valid mesh: each input triangle
contributes six fresh vertices and twelve indices confined to its own
six-vertex block. -/
theorem subdivide_valid (md : MeshData) : meshValid (Subdivide md) := by
  constructor
  · rw [subdivide_indices_length]
    rw [show md.Indices32.length / 3 * 12 =
        3 * (md.Indices32.length / 3 * 4) from by ring]
    simp [Nat.mul_mod_right]
  · intro idx hidx
    rw [subdivide_vertices_length]
    have hidx' : idx ∈ (List.range (md.Indices32.length / 3)).flatMap
        subdivIdxBlock := hidx
    simp only [List.mem_flatMap, List.mem_range] at hidx'
    obtain ⟨t, ht, hmem⟩ := hidx'
    simp only [subdivIdxBlock, List.mem_cons, List.not_mem_nil, or_false] at hmem
    rcases hmem with rfl | rfl | rfl | rfl | rfl | rfl | rfl | rfl | rfl |
      rfl | rfl | rfl <;> omega

/-- Iterated subdivision of a valid mesh stays valid. -/
theorem subdivide_iterate_valid (md : MeshData) (h : meshValid md) (k : ℕ) :
    meshValid (Subdivide^[k] md) := by
  cases k with
  | zero => exact h
  | succ j =>
    rw [Function.iterate_succ_apply']
    exact subdivide_valid _

/-- The 24 vertices of the box: six independent faces of four vertices
each (front, back, top, bottom, left, right), so each face carries its own
flat normal, tangent and UVs. -/
noncomputable def boxVertices (width height depth : ℝ) : List Vertex :=
  let w := width / 2
  let h := height / 2
  let d := depth / 2
  [⟨⟨-w, -h, -d⟩, ⟨0, 0, -1⟩, ⟨1, 0, 0⟩, ⟨0, 1⟩⟩,
    ⟨⟨-w, h, -d⟩, ⟨0, 0, -1⟩, ⟨1, 0, 0⟩, ⟨0, 0⟩⟩,
    ⟨⟨w, h, -d⟩, ⟨0, 0, -1⟩, ⟨1, 0, 0⟩, ⟨1, 0⟩⟩,
    ⟨⟨w, -h, -d⟩, ⟨0, 0, -1⟩, ⟨1, 0, 0⟩, ⟨1, 1⟩⟩,
    ⟨⟨-w, -h, d⟩, ⟨0, 0, 1⟩, ⟨-1, 0, 0⟩, ⟨1, 1⟩⟩,
    ⟨⟨w, -h, d⟩, ⟨0, 0, 1⟩, ⟨-1, 0, 0⟩, ⟨0, 1⟩⟩,
    ⟨⟨w, h, d⟩, ⟨0, 0, 1⟩, ⟨-1, 0, 0⟩, ⟨0, 0⟩⟩,
    ⟨⟨-w, h, d⟩, ⟨0, 0, 1⟩, ⟨-1, 0, 0⟩, ⟨1, 0⟩⟩,
    ⟨⟨-w, h, -d⟩, ⟨0, 1, 0⟩, ⟨1, 0, 0⟩, ⟨0, 1⟩⟩,
    ⟨⟨-w, h, d⟩, ⟨0, 1, 0⟩, ⟨1, 0, 0⟩, ⟨0, 0⟩⟩,
    ⟨⟨w, h, d⟩, ⟨0, 1, 0⟩, ⟨1, 0, 0⟩, ⟨1, 0⟩⟩,
    ⟨⟨w, h, -d⟩, ⟨0, 1, 0⟩, ⟨1, 0, 0⟩, ⟨1, 1⟩⟩,
    ⟨⟨-w, -h, -d⟩, ⟨0, -1, 0⟩, ⟨-1, 0, 0⟩, ⟨1, 1⟩⟩,
    ⟨⟨w, -h, -d⟩, ⟨0, -1, 0⟩, ⟨-1, 0, 0⟩, ⟨0, 1⟩⟩,
    ⟨⟨w, -h, d⟩, ⟨0, -1, 0⟩, ⟨-1, 0, 0⟩, ⟨0, 0⟩⟩,
    ⟨⟨-w, -h, d⟩, ⟨0, -1, 0⟩, ⟨-1, 0, 0⟩, ⟨1, 0⟩⟩,
    ⟨⟨-w, -h, d⟩, ⟨-1, 0, 0⟩, ⟨0, 0, -1⟩, ⟨0, 1⟩⟩,
    ⟨⟨-w, h, d⟩, ⟨-1, 0, 0⟩, ⟨0, 0, -1⟩, ⟨0, 0⟩⟩,
    ⟨⟨-w, h, -d⟩, ⟨-1, 0, 0⟩, ⟨0, 0, -1⟩, ⟨1, 0⟩⟩,
    ⟨⟨-w, -h, -d⟩, ⟨-1, 0, 0⟩, ⟨0, 0, -1⟩, ⟨1, 1⟩⟩,
    ⟨⟨w, -h, -d⟩, ⟨1, 0, 0⟩, ⟨0, 0, 1⟩, ⟨0, 1⟩⟩,
    ⟨⟨w, h, -d⟩, ⟨1, 0, 0⟩, ⟨0, 0, 1⟩, ⟨0, 0⟩⟩,
    ⟨⟨w, h, d⟩, ⟨1, 0, 0⟩, ⟨0, 0, 1⟩, ⟨1, 0⟩⟩,
    ⟨⟨w, -h, d⟩, ⟨1, 0, 0⟩, ⟨0, 0, 1⟩, ⟨1, 1⟩⟩]

/-- The 36 box indices: two outward-wound triangles per face. -/
def boxIndices : List ℕ :=
  [0, 1, 2, 0, 2, 3, 4, 5, 6, 4, 6, 7, 8, 9, 10, 8, 10, 11,
    12, 13, 14, 12, 14, 15, 16, 17, 18, 16, 18, 19, 20, 21, 22, 20, 22, 23]

/-- The unsubdivided box mesh. -/
noncomputable def boxBaseMesh (width height depth : ℝ) : MeshData :=
  { Vertices := boxVertices width height depth
    Indices32 := boxIndices
    mIndices16 := [] }

/-- Modelled from the spec: `GeometryGenerator::CreateBox`
(`GeometryGenerator.h:81`, body missing from `src/`).  §4.1: six
independent quads (24 vertices, 36 indices), then `numSubdivisions`
uniform refinement passes, with the subdivision count clamped to avoid
vertex explosion (clamp value 6 in the model). -/
noncomputable def CreateBox (width height depth : ℝ)
    (numSubdivisions : ℕ) : MeshData :=
  Subdivide^[min numSubdivisions 6] (boxBaseMesh width height depth)

theorem createBox_valid (width height depth : ℝ) (numSubdivisions : ℕ) :
    meshValid (CreateBox width height depth numSubdivisions) := by
  apply subdivide_iterate_valid
  have hI : (boxBaseMesh width height depth).Indices32 = boxIndices := rfl
  constructor
  · rw [hI]
    rfl
  · intro i hi
    have hv : (boxBaseMesh width height depth).Vertices.length = 24 := by
      simp [boxBaseMesh, boxVertices]
    rw [hv]
    rw [hI] at hi
    have hall : ∀ x ∈ boxIndices, x < 24 := by decide
    exact hall i hi

/-- Modelled from the spec: `GeometryGenerator::CreateWedge`
(`GeometryGenerator.h:105`, body missing from `src/`).  §4.7: the wedge
keeps the box's vertex generation and reroutes the index list to slice the
box into a wedge; the spec does not fix the concrete index list, so the
list below realizes one such re-indexing over the 24 box vertices
(bottom face, back face, two triangular sides, slanted top), followed by
the same clamped subdivision as the box. -/
def wedgeIndices : List ℕ :=
  [12, 13, 14, 12, 14, 15, 4, 5, 6, 4, 6, 7, 16, 17, 18, 20, 21, 22,
    0, 1, 5, 0, 5, 4]

/-- The unsubdivided wedge mesh: box vertices, rerouted indices (see
`wedgeIndices`). -/
noncomputable def wedgeBaseMesh (width height depth : ℝ) : MeshData :=
  { Vertices := boxVertices width height depth
    Indices32 := wedgeIndices
    mIndices16 := [] }

noncomputable def CreateWedge (width height depth : ℝ)
    (numSubdivisions : ℕ) : MeshData :=
  Subdivide^[min numSubdivisions 6] (wedgeBaseMesh width height depth)

theorem createWedge_valid (width height depth : ℝ) (numSubdivisions : ℕ) :
    meshValid (CreateWedge width height depth numSubdivisions) := by
  apply subdivide_iterate_valid
  have hI : (wedgeBaseMesh width height depth).Indices32 = wedgeIndices := rfl
  constructor
  · rw [hI]
    rfl
  · intro i hi
    have hv : (wedgeBaseMesh width height depth).Vertices.length = 24 := by
      simp [wedgeBaseMesh, boxVertices]
    rw [hv]
    rw [hI] at hi
    have hall : ∀ x ∈ wedgeIndices, x < 24 := by decide
    exact hall i hi

/-- The 12 fixed unit-radius icosahedron vertices (§4.3's hardcoded base
topology); normals start as the normalized positions, tangents and UVs are
recomputed after projection. -/
noncomputable def icosahedronVertices : List Vertex :=
  let X : ℝ := 0.525731
  let Z : ℝ := 0.850651
  [⟨⟨-X, 0, Z⟩, normalize3 ⟨-X, 0, Z⟩, ⟨1, 0, 0⟩, ⟨0, 0⟩⟩,
    ⟨⟨X, 0, Z⟩, normalize3 ⟨X, 0, Z⟩, ⟨1, 0, 0⟩, ⟨0, 0⟩⟩,
    ⟨⟨-X, 0, -Z⟩, normalize3 ⟨-X, 0, -Z⟩, ⟨1, 0, 0⟩, ⟨0, 0⟩⟩,
    ⟨⟨X, 0, -Z⟩, normalize3 ⟨X, 0, -Z⟩, ⟨1, 0, 0⟩, ⟨0, 0⟩⟩,
    ⟨⟨0, Z, X⟩, normalize3 ⟨0, Z, X⟩, ⟨1, 0, 0⟩, ⟨0, 0⟩⟩,
    ⟨⟨0, Z, -X⟩, normalize3 ⟨0, Z, -X⟩, ⟨1, 0, 0⟩, ⟨0, 0⟩⟩,
    ⟨⟨0, -Z, X⟩, normalize3 ⟨0, -Z, X⟩, ⟨1, 0, 0⟩, ⟨0, 0⟩⟩,
    ⟨⟨0, -Z, -X⟩, normalize3 ⟨0, -Z, -X⟩, ⟨1, 0, 0⟩, ⟨0, 0⟩⟩,
    ⟨⟨Z, X, 0⟩, normalize3 ⟨Z, X, 0⟩, ⟨1, 0, 0⟩, ⟨0, 0⟩⟩,
    ⟨⟨-Z, X, 0⟩, normalize3 ⟨-Z, X, 0⟩, ⟨1, 0, 0⟩, ⟨0, 0⟩⟩,
    ⟨⟨Z, -X, 0⟩, normalize3 ⟨Z, -X, 0⟩, ⟨1, 0, 0⟩, ⟨0, 0⟩⟩,
    ⟨⟨-Z, -X, 0⟩, normalize3 ⟨-Z, -X, 0⟩, ⟨1, 0, 0⟩, ⟨0, 0⟩⟩]

/-- The 20 fixed icosahedron triangles (60 indices, §4.3's hardcoded base
topology). -/
def icosahedronIndices : List ℕ :=
  [1, 4, 0, 4, 9, 0, 4, 5, 9, 8, 5, 4, 1, 8, 4,
    1, 10, 8, 10, 3, 8, 8, 3, 5, 3, 2, 5, 3, 7, 2,
    3, 10, 7, 10, 6, 7, 6, 11, 7, 6, 0, 11, 6, 1, 0,
    10, 1, 6, 11, 0, 9, 2, 11, 9, 5, 2, 9, 11, 2, 7]

/-- The unsubdivided icosahedron mesh. -/
noncomputable def icosahedronMesh : MeshData :=
  { Vertices := icosahedronVertices
    Indices32 := icosahedronIndices
    mIndices16 := [] }

/-- Projection of a vertex onto the sphere of the given radius: position
scaled onto the sphere, normal the normalized position, tangent and
texture coordinates recomputed from the spherical angles of the projected
position. -/
noncomputable def projectToSphere (radius : ℝ) (v : Vertex) : Vertex :=
  let n := normalize3 v.Position
  let p : XMFLOAT3 := ⟨radius * n.x, radius * n.y, radius * n.z⟩
  let θ := Real.arctan (p.z / p.x)
  let φ := Real.arccos (p.y / radius)
  { Position := p
    Normal := n
    TangentU := normalize3 ⟨-radius * Real.sin φ * Real.sin θ, 0,
      radius * Real.sin φ * Real.cos θ⟩
    TexC := ⟨θ / (2 * Real.pi), φ / Real.pi⟩ }

/-- Modelled from the spec: `GeometryGenerator::CreateGeosphere`
(`GeometryGenerator.h:93`, body missing from `src/`).  §4.3: start from the
hardcoded icosahedron, apply the Subdivision Engine `numSubdivisions`
times (clamped, value 5 in the model as suggested in §4.3/§6), then
project every vertex onto the sphere of the requested radius. -/
noncomputable def CreateGeosphere (radius : ℝ) (numSubdivisions : ℕ) : MeshData :=
  let sub := Subdivide^[min numSubdivisions 5] icosahedronMesh
  { sub with Vertices := sub.Vertices.map (projectToSphere radius) }

/-- Re-deriving vertex attributes in place (a `map` over the vertex
buffer) preserves mesh validity. -/
theorem meshValid_map_vertices (md : MeshData) (f : Vertex → Vertex)
    (h : meshValid md) :
    meshValid { md with Vertices := md.Vertices.map f } := by
  obtain ⟨hlen, hbound⟩ := h
  refine ⟨hlen, ?_⟩
  intro i hi
  show i < (md.Vertices.map f).length
  rw [List.length_map]
  exact hbound i hi

theorem createGeosphere_valid (radius : ℝ) (numSubdivisions : ℕ) :
    meshValid (CreateGeosphere radius numSubdivisions) := by
  apply meshValid_map_vertices
  apply subdivide_iterate_valid
  have hI : icosahedronMesh.Indices32 = icosahedronIndices := rfl
  constructor
  · rw [hI]
    rfl
  · intro i hi
    have hv : icosahedronMesh.Vertices.length = 12 := by
      simp [icosahedronMesh, icosahedronVertices]
    rw [hv]
    rw [hI] at hi
    have hall : ∀ x ∈ icosahedronIndices, x < 12 := by decide
    exact hall i hi

/-- Negation of a vertex normal (used for the inward-facing inner pipe
wall). -/
noncomputable def flipNormal (v : Vertex) : Vertex :=
  { v with Normal := ⟨-v.Normal.x, -v.Normal.y, -v.Normal.z⟩ }

/-- Modelled from the spec: `GeometryGenerator::BuildInnerPipe`
(`GeometryGenerator.h:153`, body missing from `src/`).  §4.6: appends a
second, concentric wall at half the outer radii, wound with reversed
orientation and with inverted normals so the wall faces into the cavity. -/
noncomputable def BuildInnerPipe (topRadius bottomRadius height : ℝ)
    (sliceCount stackCount : ℕ) (md : MeshData) : MeshData :=
  let rvc := sliceCount + 1
  let base := md.Vertices.length
  { Vertices := md.Vertices ++ (List.range (stackCount + 1)).flatMap (fun i =>
      (List.range rvc).map (fun j => flipNormal
        (cylinderRingVertex (bottomRadius / 2) (topRadius / 2) height
          sliceCount stackCount i j)))
    Indices32 := md.Indices32 ++ (List.range stackCount).flatMap (fun i =>
      (List.range sliceCount).flatMap (fun j =>
        [base + i * rvc + j, base + (i + 1) * rvc + j + 1,
          base + (i + 1) * rvc + j,
          base + i * rvc + j, base + i * rvc + j + 1,
          base + (i + 1) * rvc + j + 1]))
    mIndices16 := md.mIndices16 }

theorem buildInnerPipe_valid (topRadius bottomRadius height : ℝ)
    (sliceCount stackCount : ℕ) (md : MeshData) (h : meshValid md) :
    meshValid (BuildInnerPipe topRadius bottomRadius height sliceCount
      stackCount md) := by
  obtain ⟨hlen, hbound⟩ := h
  have hV : (BuildInnerPipe topRadius bottomRadius height sliceCount
      stackCount md).Vertices.length =
      md.Vertices.length + (stackCount + 1) * (sliceCount + 1) := by
    show (md.Vertices ++ _).length = _
    rw [List.length_append, length_flatMap_const _ (sliceCount + 1)
      (stackCount + 1) (fun i => by rw [List.length_map, List.length_range])]
  have hblk : ∀ i : ℕ, ((List.range sliceCount).flatMap (fun j =>
      [md.Vertices.length + i * (sliceCount + 1) + j,
        md.Vertices.length + (i + 1) * (sliceCount + 1) + j + 1,
        md.Vertices.length + (i + 1) * (sliceCount + 1) + j,
        md.Vertices.length + i * (sliceCount + 1) + j,
        md.Vertices.length + i * (sliceCount + 1) + j + 1,
        md.Vertices.length + (i + 1) * (sliceCount + 1) + j + 1])).length =
      sliceCount * 6 :=
    fun i => length_flatMap_const _ 6 sliceCount (fun j => rfl)
  constructor
  · show (md.Indices32 ++ _).length % 3 = 0
    rw [List.length_append,
      length_flatMap_const _ (sliceCount * 6) stackCount hblk]
    have h6 : stackCount * (sliceCount * 6) =
        3 * (stackCount * (sliceCount * 2)) := by ring
    omega
  · intro idx hidx
    rw [hV]
    rcases List.mem_append.mp hidx with hold | hnew
    · exact lt_of_lt_of_le (hbound idx hold) (by omega)
    · simp only [List.mem_flatMap, List.mem_range] at hnew
      obtain ⟨i, hi, j, hj, hmem⟩ := hnew
      have h3 := latticeCellBound (stackCount + 1) (sliceCount + 1) i j (i + 1)
        (j + 1) (by omega) (by omega) (by omega) (by omega)
      have h4 := latticeCellBound (stackCount + 1) (sliceCount + 1) i j i
        (j + 1) (by omega) (by omega) (by omega) (by omega)
      simp only [List.mem_cons, List.not_mem_nil, or_false] at hmem
      rcases hmem with rfl | rfl | rfl | rfl | rfl | rfl <;> omega

/-- Modelled from the spec: `GeometryGenerator::BuildPipeTopCap`
(`GeometryGenerator.h:154`, body missing from `src/`).  §4.5: an annulus
between the inner and outer top rings — two freshly duplicated rings, no
center vertex, each quad split into two triangles. -/
noncomputable def BuildPipeTopCap (topRadius height : ℝ)
    (sliceCount : ℕ) (md : MeshData) : MeshData :=
  let base := md.Vertices.length
  let ibase := base + sliceCount + 1
  { Vertices := md.Vertices ++
      ((List.range (sliceCount + 1)).map
          (capRingVertex topRadius (height / 2) 1 height sliceCount) ++
        (List.range (sliceCount + 1)).map
          (capRingVertex (topRadius / 2) (height / 2) 1 height sliceCount))
    Indices32 := md.Indices32 ++ (List.range sliceCount).flatMap (fun i =>
      [base + i, ibase + i, base + i + 1,
        base + i + 1, ibase + i, ibase + i + 1])
    mIndices16 := md.mIndices16 }

/-- Modelled from the spec: `GeometryGenerator::BuildPipeBottomCap`
(`GeometryGenerator.h:155`, body missing from `src/`).  The bottom
annulus, mirrored at `-height/2` with downward normal and reversed
winding. -/
noncomputable def BuildPipeBottomCap (bottomRadius height : ℝ)
    (sliceCount : ℕ) (md : MeshData) : MeshData :=
  let base := md.Vertices.length
  let ibase := base + sliceCount + 1
  { Vertices := md.Vertices ++
      ((List.range (sliceCount + 1)).map
          (capRingVertex bottomRadius (-(height / 2)) (-1) height sliceCount) ++
        (List.range (sliceCount + 1)).map
          (capRingVertex (bottomRadius / 2) (-(height / 2)) (-1) height
            sliceCount))
    Indices32 := md.Indices32 ++ (List.range sliceCount).flatMap (fun i =>
      [base + i, base + i + 1, ibase + i,
        base + i + 1, ibase + i + 1, ibase + i])
    mIndices16 := md.mIndices16 }

theorem buildPipeTopCap_valid (topRadius height : ℝ)
    (sliceCount : ℕ) (md : MeshData) (h : meshValid md) :
    meshValid (BuildPipeTopCap topRadius height sliceCount md) := by
  obtain ⟨hlen, hbound⟩ := h
  have hV : (BuildPipeTopCap topRadius height sliceCount md).Vertices.length =
      md.Vertices.length + 2 * (sliceCount + 1) := by
    show (md.Vertices ++ _).length = _
    rw [List.length_append, List.length_append, List.length_map,
      List.length_map, List.length_range]
    omega
  have hfan : ((List.range sliceCount).flatMap (fun i =>
      [md.Vertices.length + i, md.Vertices.length + sliceCount + 1 + i,
        md.Vertices.length + i + 1,
        md.Vertices.length + i + 1, md.Vertices.length + sliceCount + 1 + i,
        md.Vertices.length + sliceCount + 1 + i + 1])).length =
      sliceCount * 6 :=
    length_flatMap_const _ 6 sliceCount (fun i => rfl)
  constructor
  · show (md.Indices32 ++ _).length % 3 = 0
    rw [List.length_append, hfan]
    omega
  · intro idx hidx
    rw [hV]
    rcases List.mem_append.mp hidx with hold | hnew
    · exact lt_of_lt_of_le (hbound idx hold) (by omega)
    · simp only [List.mem_flatMap, List.mem_range] at hnew
      obtain ⟨i, hi, hmem⟩ := hnew
      simp only [List.mem_cons, List.not_mem_nil, or_false] at hmem
      rcases hmem with rfl | rfl | rfl | rfl | rfl | rfl <;> omega

theorem buildPipeBottomCap_valid (bottomRadius height : ℝ)
    (sliceCount : ℕ) (md : MeshData) (h : meshValid md) :
    meshValid (BuildPipeBottomCap bottomRadius height sliceCount md) := by
  obtain ⟨hlen, hbound⟩ := h
  have hV : (BuildPipeBottomCap bottomRadius height sliceCount
      md).Vertices.length = md.Vertices.length + 2 * (sliceCount + 1) := by
    show (md.Vertices ++ _).length = _
    rw [List.length_append, List.length_append, List.length_map,
      List.length_map, List.length_range]
    omega
  have hfan : ((List.range sliceCount).flatMap (fun i =>
      [md.Vertices.length + i, md.Vertices.length + i + 1,
        md.Vertices.length + sliceCount + 1 + i,
        md.Vertices.length + i + 1, md.Vertices.length + sliceCount + 1 + i + 1,
        md.Vertices.length + sliceCount + 1 + i])).length =
      sliceCount * 6 :=
    length_flatMap_const _ 6 sliceCount (fun i => rfl)
  constructor
  · show (md.Indices32 ++ _).length % 3 = 0
    rw [List.length_append, hfan]
    omega
  · intro idx hidx
    rw [hV]
    rcases List.mem_append.mp hidx with hold | hnew
    · exact lt_of_lt_of_le (hbound idx hold) (by omega)
    · simp only [List.mem_flatMap, List.mem_range] at hnew
      obtain ⟨i, hi, hmem⟩ := hnew
      simp only [List.mem_cons, List.not_mem_nil, or_false] at hmem
      rcases hmem with rfl | rfl | rfl | rfl | rfl | rfl <;> omega

/-- Modelled from the spec: `GeometryGenerator::CreatePipe`
(`GeometryGenerator.h:112`, body missing from `src/`).  §4.6: outer
cylinder wall, inverted inner wall at half the radii, and two annular
caps joining them. -/
noncomputable def CreatePipe (topRadius bottomRadius height : ℝ)
    (sliceCount stackCount : ℕ) : MeshData :=
  BuildPipeBottomCap bottomRadius height sliceCount
    (BuildPipeTopCap topRadius height sliceCount
      (BuildInnerPipe topRadius bottomRadius height sliceCount stackCount
        (CreateCylinderWall bottomRadius topRadius height sliceCount
          stackCount)))

theorem createPipe_valid (topRadius bottomRadius height : ℝ)
    (sliceCount stackCount : ℕ) :
    meshValid (CreatePipe topRadius bottomRadius height sliceCount
      stackCount) :=
  buildPipeBottomCap_valid _ _ _ _
    (buildPipeTopCap_valid _ _ _ _
      (buildInnerPipe_valid _ _ _ _ _ _
        (createCylinderWall_valid bottomRadius topRadius height sliceCount
          stackCount)))

/-- Concatenation of two meshes: the second mesh's indices are shifted by
the first mesh's vertex count. -/
noncomputable def MeshConcat (a b : MeshData) : MeshData :=
  { Vertices := a.Vertices ++ b.Vertices
    Indices32 := a.Indices32 ++ b.Indices32.map (fun i => i + a.Vertices.length)
    mIndices16 := [] }

theorem meshConcat_valid (a b : MeshData) (ha : meshValid a)
    (hb : meshValid b) : meshValid (MeshConcat a b) := by
  obtain ⟨hal, hab⟩ := ha
  obtain ⟨hbl, hbb⟩ := hb
  constructor
  · show (a.Indices32 ++ b.Indices32.map _).length % 3 = 0
    rw [List.length_append, List.length_map]
    omega
  · intro idx hidx
    show idx < (a.Vertices ++ b.Vertices).length
    rw [List.length_append]
    rcases List.mem_append.mp hidx with hold | hnew
    · exact lt_of_lt_of_le (hab idx hold) (by omega)
    · obtain ⟨j, hj, rfl⟩ := List.mem_map.mp hnew
      have := hbb j hj
      omega

/-- Reflection of a vertex through the XZ-plane (used to mirror the lower
pyramid of the diamond). -/
noncomputable def mirrorY (v : Vertex) : Vertex :=
  { Position := ⟨v.Position.x, -v.Position.y, v.Position.z⟩
    Normal := ⟨v.Normal.x, -v.Normal.y, v.Normal.z⟩
    TangentU := v.TangentU
    TexC := v.TexC }

/-- Modelled from the spec: `GeometryGenerator::CreateDiamond`
(`GeometryGenerator.h:117`, body missing from `src/`).  §4.7: two
apex-to-base pyramids joined base-to-base — two cylinder-family meshes
with mirrored height offsets concatenated into one container, the second
half's indices offset by the first half's vertex count.  The spec ties no
particular role to the subdivision parameter here, so the model passes it
to the pyramids as their stack count (at least 1). -/
noncomputable def CreateDiamond (radius height depth : ℝ)
    (numSubdivisions : ℕ) : MeshData :=
  let upper := CreatePyramid radius (height / 2) (numSubdivisions + 1)
  let lower := { upper with Vertices := upper.Vertices.map mirrorY }
  MeshConcat upper lower

theorem createDiamond_valid (radius height depth : ℝ)
    (numSubdivisions : ℕ) :
    meshValid (CreateDiamond radius height depth numSubdivisions) :=
  meshConcat_valid _ _
    (createCylinder_valid _ _ _ _ _)
    (meshValid_map_vertices _ _ (createCylinder_valid _ _ _ _ _))

/-- C7: every shape generator, under the documented parameter constraints
(§6), returns a mesh whose wide-index count is a multiple of three and all
of whose wide indices are valid vertex offsets. -/
theorem generators_satisfy_invariants
    (w h d r br tr qx qy qw qh qd : ℝ) (nsub m n sc st sc2 st2 : ℕ)
    (hw : 0 < w) (hh : 0 < h) (hd : 0 < d) (hr : 0 < r)
    (hbr : 0 < br) (htr : 0 < tr)
    (hqw : 0 < qw) (hqh : 0 < qh)
    (hm : 2 ≤ m) (hn : 2 ≤ n)
    (hsc : 3 ≤ sc) (hst : 2 ≤ st)
    (hsc2 : 3 ≤ sc2) (hst2 : 1 ≤ st2) :
    meshValid (CreateBox w h d nsub) ∧
      meshValid (CreateSphere r sc st) ∧
      meshValid (CreateGeosphere r nsub) ∧
      meshValid (CreateCylinder br tr h sc2 st2) ∧
      meshValid (CreateWedge w h d nsub) ∧
      meshValid (CreatePipe tr br h sc2 st2) ∧
      meshValid (CreateDiamond r h d nsub) ∧
      meshValid (CreateCone br h sc2 st2) ∧
      meshValid (CreatePyramid br h st2) ∧
      meshValid (CreateTrianglePrism br h st2) ∧
      meshValid (CreateGrid w d m n) ∧
      meshValid (CreateQuad qx qy qw qh qd) :=
  ⟨createBox_valid w h d nsub,
    createSphere_valid r sc st hst,
    createGeosphere_valid r nsub,
    createCylinder_valid br tr h sc2 st2,
    createWedge_valid w h d nsub,
    createPipe_valid tr br h sc2 st2,
    createDiamond_valid r h d nsub,
    createCylinder_valid br 0 h sc2 st2,
    createCylinder_valid br 0 h 4 st2,
    createCylinder_valid br br h 3 st2,
    createGrid_valid w d m n,
    createQuad_valid qx qy qw qh qd⟩

/-- Witness for C7 at concrete parameters satisfying every documented
constraint. -/
theorem generators_satisfy_invariants_witness :
    ((0 : ℝ) < 2 ∧ (0 : ℝ) < 3 ∧ (0 : ℝ) < 4 ∧ (0 : ℝ) < 1 ∧
      (2 : ℕ) ≤ 2 ∧ (2 : ℕ) ≤ 3 ∧ (3 : ℕ) ≤ 3 ∧ (2 : ℕ) ≤ 2 ∧
      (3 : ℕ) ≤ 4 ∧ (1 : ℕ) ≤ 1) ∧
    (meshValid (CreateBox 2 3 4 1) ∧
      meshValid (CreateSphere 1 3 2) ∧
      meshValid (CreateGeosphere 1 1) ∧
      meshValid (CreateCylinder 1 1 3 4 1) ∧
      meshValid (CreateWedge 2 3 4 1) ∧
      meshValid (CreatePipe 1 1 3 4 1) ∧
      meshValid (CreateDiamond 1 3 4 1) ∧
      meshValid (CreateCone 1 3 4 1) ∧
      meshValid (CreatePyramid 1 3 1) ∧
      meshValid (CreateTrianglePrism 1 3 1) ∧
      meshValid (CreateGrid 2 4 2 3) ∧
      meshValid (CreateQuad 0 0 1 1 0)) :=
  ⟨⟨by norm_num, by norm_num, by norm_num, by norm_num, by decide, by decide,
      by decide, by decide, by decide, by decide⟩,
    generators_satisfy_invariants 2 3 4 1 1 1 0 0 1 1 0 1 2 3 3 2 4 1
      (by norm_num) (by norm_num) (by norm_num) (by norm_num) (by norm_num)
      (by norm_num) (by norm_num) (by norm_num) (by decide) (by decide)
      (by decide) (by decide) (by decide) (by decide)⟩
